import Mathlib

/-!
Verification development for the Tech Brews Notion question-answering
assistant (`tech_brews.py`).

The program is a single class `NotionPageReader` orchestrating three
external HTTP services: the Jina AI Reader (page fetch), and two
OpenRouter chat-completion calls (link relevance selection and answer
synthesis).  We embed the orchestration logic shallowly:

* session state (`visited_urls`, `page_contents`) is passed explicitly;
* the network is an oracle `Env` mapping a fetch URL to a response and an
  LLM prompt to a response; `json.loads` on a candidate JSON-array slice
  is likewise an oracle (it is an external library routine);
* each operation returns, besides its Python return value, the updated
  state and a log of the outbound requests it performed, so that
  "no additional network call" style properties are statable;
* Streamlit UI calls (`st.spinner`, `st.warning`, ...) are pure display
  and are not modelled.

Python truthiness of strings/lists is translated as (dis)equality with
`""` / `[]`, and Python string slicing (by code point) as `List.take` /
`List.drop` on `String.toList`.
-/

/-- Outcome of `requests.get` on the Jina Reader endpoint: either a
completed HTTP response with a status code and body text, or a raised
exception (timeout, connection error, ...) carrying its message. -/
inductive FetchResult where
  | ok (status : Nat) (text : String)
  | exn (msg : String)
deriving DecidableEq, Repr

/-- Outcome of `requests.post` on the OpenRouter chat endpoint.
`content` is `response.json()['choices'][0]['message']['content']`
(for a 200 response); `errMsg` is, for a non-200 response whose body
parses as JSON with an `error` object, that object's `message` field
(`none` when the body does not parse or has no `error` key).  A raised
exception — including a malformed 200 body on which the subscripting
raises — is `exn`. -/
inductive LLMResult where
  | ok (status : Nat) (content : String) (errMsg : Option String)
  | exn (msg : String)
deriving DecidableEq, Repr

/-- The external world: deterministic oracles for the two HTTP services
and for `json.loads` applied to the extracted bracket-delimited slice
(`none` models a raised `json.JSONDecodeError`; a successful parse of a
top-level array of strings is `some`). -/
structure Env where
  fetch : String → FetchResult
  llm : String → LLMResult
  jsonLoads : String → Option (List String)

/-- Session state of one `NotionPageReader` instance:
`self.visited_urls` (a set, modelled as a duplicate-free list built by
guarded insertion) and `self.page_contents` (a dict, modelled as an
association list with newest binding first). -/
structure ReaderState where
  visited_urls : List String
  page_contents : List (String × String)
deriving DecidableEq, Repr

/-- The fresh state built by `NotionPageReader.__init__`. -/
def ReaderState.init : ReaderState := ⟨[], []⟩

/-- Python `\s` on the ASCII range: space, tab, newline, carriage
return, vertical tab (11), form feed (12).  The inputs we reason about
are ASCII, so the extra Unicode spaces Python also matches are not
modelled. -/
def isPySpace (c : Char) : Bool :=
  c = ' ' || c = '\t' || c = '\n' || c = '\r' ||
    c = Char.ofNat 11 || c = Char.ofNat 12

/-- The single-quote character (written via its code point). -/
def squoteChar : Char := Char.ofNat 39

/-- Python `str.strip()`: drop leading and trailing whitespace. -/
def pyStrip (s : String) : String :=
  String.mk (((s.toList.dropWhile isPySpace).reverse.dropWhile isPySpace).reverse)

/-- `re.sub(r'\n{3,}', '\n\n', ·)` from `extract_page_content`: every
maximal run of three or more newlines collapses to exactly two. -/
def collapseNLs (fuel : Nat) (l : List Char) : List Char :=
  match fuel, l with
  | 0, l => l
  | _ + 1, [] => []
  | n + 1, '\n' :: '\n' :: '\n' :: rest =>
      '\n' :: '\n' :: collapseNLs n (rest.dropWhile (· = '\n'))
  | n + 1, c :: rest => c :: collapseNLs n rest

/-- The whitespace cleanup applied to a fetched page body. -/
def cleanContent (text : String) : String :=
  String.mk (collapseNLs text.toList.length text.toList)

/-- Strip an expected literal from the front of the input: `some rest`
when the input starts with the literal, `none` otherwise. -/
def stripPre : List Char → List Char → Option (List Char)
  | [], rest => some rest
  | _ :: _, [] => none
  | p :: ps, c :: cs => if c = p then stripPre ps cs else none

/-- A character admitted by the regex character class `[^\s\)"\']`. -/
def isLinkChar (c : Char) : Bool :=
  !(isPySpace c) && !(c = ')') && !(c = '"') && !(c = squoteChar)

/-- Match `(?:site|so)/[^\s\)"\']+` at the given input (the part of the
Notion-link regex after `notion.`), trying the alternative `site` first
and backtracking to `so`, as the regex engine does.  Returns the
matched characters and the remaining input. -/
def tryNotionEnd (suf rest : List Char) : Option (List Char × List Char) :=
  match stripPre suf rest with
  | some ('/' :: r4) =>
      let body := r4.takeWhile isLinkChar
      if body = [] then none
      else some (suf ++ '/' :: body, r4.drop body.length)
  | _ => none

/-- Try the two alternatives in regex order. -/
def matchAfterNotion (rest : List Char) : Option (List Char × List Char) :=
  match tryNotionEnd "site".toList rest with
  | some res => some res
  | none => tryNotionEnd "so".toList rest

/-- Match the full pattern `https://(?:www\.)?notion\.(?:site|so)/[^\s\)"\']+`
at the start of the input: greedy on the optional `www.`, with
backtracking.  Returns the matched characters and the remaining input. -/
def matchLinkAt (cs : List Char) : Option (List Char × List Char) :=
  match stripPre "https://".toList cs with
  | none => none
  | some rest1 =>
      let withWww : Option (List Char × List Char) :=
        match stripPre "www.".toList rest1 with
        | some restW =>
            match stripPre "notion.".toList restW with
            | some rest2 =>
                match matchAfterNotion rest2 with
                | some (m, rem) => some ("https://www.notion.".toList ++ m, rem)
                | none => none
            | none => none
        | none => none
      match withWww with
      | some r => some r
      | none =>
          match stripPre "notion.".toList rest1 with
          | some rest2 =>
              match matchAfterNotion rest2 with
              | some (m, rem) => some ("https://notion.".toList ++ m, rem)
              | none => none
          | none => none

/-- `re.findall` for the Notion-link pattern: scan left to right, emit
each leftmost non-overlapping match, resume after it.  The fuel is an
upper bound on the number of scanning steps; `findAllLinks` below
supplies one that can never be exhausted (each step either consumes the
whole match — at least one character — or advances one character). -/
def findAllAux (fuel : Nat) (l : List Char) : List String :=
  match fuel, l with
  | 0, _ => []
  | _ + 1, [] => []
  | n + 1, c :: cs =>
      match matchLinkAt (c :: cs) with
      | some (m, rem) => String.mk m :: findAllAux n rem
      | none => findAllAux n cs

/-- All matches of the Notion-link pattern in the text, in occurrence
order (the `re.findall(pattern, text)` value). -/
def findAllLinks (text : String) : List String :=
  findAllAux text.toList.length text.toList

/-- `NotionPageReader.extract_notion_links`: `list(set(re.findall(...)))`.
CPython's set iteration order is unspecified, so the element order of
the returned list carries no meaning; we model the set round-trip as
`List.dedup` and state only order-insensitive properties about it. -/
def extract_notion_links (text : String) : List String :=
  (findAllLinks text).dedup

/-- `NotionPageReader.extract_page_content`.  Returns the Python return
value, the updated session state, and the log of outbound request URLs
(one entry per `requests.get` attempt, keyed by the page URL).  A
cached URL answers from `page_contents` with no request; a 200 response
is cleaned and recorded; any other status or an exception yields `""`
and records nothing. -/
def extract_page_content (env : Env) (s : ReaderState) (url : String) :
    String × ReaderState × List String :=
  if url ∈ s.visited_urls then
    ((s.page_contents.lookup url).getD "", s, [])
  else
    match env.fetch url with
    | .ok status text =>
        if status = 200 then
          let content := cleanContent text
          (content,
           { visited_urls := url :: s.visited_urls,
             page_contents := (url, content) :: s.page_contents },
           [url])
        else ("", s, [url])
    | .exn _ => ("", s, [url])

/-- `DEFAULT_NOTION_URL` from the configuration header. -/
def DEFAULT_NOTION_URL : String :=
  "https://techbrews.notion.site/Welcome-to-Tech-Brews-a9805827439d46f3b9d60a10bf39ebda"

/-- `MAX_LINKS_TO_FOLLOW` from the configuration header. -/
def MAX_LINKS_TO_FOLLOW : Nat := 5

/-- The host part of an `https://` URL: the characters after
`https://` up to the first `/`. -/
def urlHost (u : String) : String :=
  String.mk ((u.toList.drop 8).takeWhile (fun c => !(c = '/')))

/-- The prompt built by `ask_llm_for_links`: the question, a bulleted
list of the first 20 candidate links, and the JSON-array instruction. -/
def linksPrompt (question : String) (available_links : List String) : String :=
  "Given this question: \"" ++ question ++ "\"\n\n" ++
  "Available links from the page:\n" ++
  String.intercalate "\n" ((available_links.take 20).map (fun link => "- " ++ link)) ++
  "\n\nReturn ONLY a JSON array of the 3 most relevant URLs that would help answer this question: [\"url1\", \"url2\", \"url3\"]\nIf none are relevant, return: []"

/-- The slice `content[content.index('['):content.rindex(']')+1]`,
taken only when both brackets occur (`'[' in content and ']' in
content`); `none` when they do not.  As in Python, when the first `[`
lies after the last `]` the slice is empty. -/
def extractJsonStr (content : String) : Option String :=
  let cs := content.toList
  if '[' ∈ cs ∧ ']' ∈ cs then
    let start := cs.indexOf '['
    let stop := cs.length - 1 - cs.reverse.indexOf ']'
    some (String.mk ((cs.drop start).take (stop + 1 - start)))
  else none

/-- `NotionPageReader.ask_llm_for_links`.  Returns the selected link
list and the number of chat-completion requests performed (0 when the
candidate list is empty and the function returns before posting, 1
otherwise — the code never retries).  Every failure path (non-200
status, missing brackets, `json.loads` error, raised exception) returns
`[]`; the function itself raises nothing. -/
def ask_llm_for_links (env : Env) (question main_content : String)
    (available_links : List String) : List String × Nat :=
  if available_links = [] then ([], 0)
  else
    match env.llm (linksPrompt question available_links) with
    | .ok status content _ =>
        if status = 200 then
          match extractJsonStr (pyStrip content) with
          | some json_str =>
              match env.jsonLoads json_str with
              | some arr => (arr.take MAX_LINKS_TO_FOLLOW, 1)
              | none => ([], 1)
          | none => ([], 1)
        else ([], 1)
    | .exn _ => ([], 1)

/-- The fixed text of `generate_answer`'s prompt before the truncated
context. -/
def answerPromptPre (question : String) : String :=
  "You are a helpful assistant answering questions about Tech Brews community based on their Notion pages.\n\n" ++
  "Question: \"" ++ question ++ "\"\n\nContent from Notion pages:\n"

/-- The fixed text of `generate_answer`'s prompt after the truncated
context (the source line carries two trailing spaces). -/
def answerPromptPost : String :=
  "  \n\nInstructions:\n- Provide a clear, accurate answer based ONLY on the content above\n- If the content doesn't contain the answer, say so\n- Include relevant details and examples\n- Keep the answer concise but complete\n- Use a friendly, professional tone"

/-- The prompt built by `generate_answer`: the context is truncated to
its first 15000 characters (`context[:15000]`) before insertion. -/
def answerPrompt (question context : String) : String :=
  answerPromptPre question ++ String.mk (context.toList.take 15000) ++ answerPromptPost

/-- `NotionPageReader.generate_answer`: one chat-completion request; a
200 response's content is the answer; otherwise a formatted error
string (with the provider message appended when the body carried one);
a raised exception is formatted likewise. -/
def generate_answer (env : Env) (question context : String) : String :=
  match env.llm (answerPrompt question context) with
  | .ok status content errMsg =>
      if status = 200 then content
      else
        match errMsg with
        | some m => "❌ API Error " ++ toString status ++ ": " ++ m
        | none => "❌ API Error " ++ toString status
  | .exn msg => "❌ Error generating answer: " ++ msg

/-- The failure message returned when the main page yields no content. -/
def mainFetchFailMsg : String :=
  "❌ Couldn't extract content from the page. The page might be private or blocked."

/-- The labelled main-page section opening the context document. -/
def mainSection (url main_content : String) : String :=
  "=== Main Page (" ++ url ++ ") ===\n" ++ main_content ++ "\n"

/-- The labelled section appended for a followed link whose fetch
returned content. -/
def linkSection (link content : String) : String :=
  "\n\n=== Linked Page: " ++ link ++ " ===\n" ++ content ++ "\n"

/-- The `for i, link in enumerate(relevant_links, 1)` loop of
`answer_question`: fetch each selected link in order, appending a
labelled section for each non-empty result.  Returns the accumulated
context, the final state, the URLs passed to `extract_page_content`,
and the outbound request log. -/
def fetchLoop (env : Env) (s : ReaderState) (links : List String) (acc : String) :
    String × ReaderState × List String × List String :=
  match links with
  | [] => (acc, s, [], [])
  | link :: rest =>
      let r := extract_page_content env s link
      let acc' := if r.1 = "" then acc else acc ++ linkSection link r.1
      let rec' := fetchLoop env r.2.1 rest acc'
      (rec'.1, rec'.2.1, link :: rec'.2.2.1, r.2.2 ++ rec'.2.2.2)

/-- The observable outcome of one `answer_question` run: the returned
answer, the final session state, the URLs passed to
`extract_page_content` in call order, the outbound page-request log,
the contexts handed to `generate_answer` (the synthesizer), and the
number of link-selection chat requests. -/
structure QAResult where
  answer : String
  state : ReaderState
  fetchCalls : List String
  netRequests : List String
  synthContexts : List String
  linkLlmCalls : Nat
deriving DecidableEq, Repr

/-- `NotionPageReader.answer_question`.  Fetches the main page; on
empty content returns the failure message at once (no further fetches,
no synthesizer call).  Otherwise builds the context starting with the
main-page section, optionally follows links (extract, LLM selection,
bounded fetch loop), and calls `generate_answer` once on the
accumulated context. -/
def answer_question (env : Env) (s : ReaderState) (question url : String)
    (follow_links : Bool) : QAResult :=
  let m := extract_page_content env s url
  if m.1 = "" then
    { answer := mainFetchFailMsg, state := m.2.1, fetchCalls := [url],
      netRequests := m.2.2, synthContexts := [], linkLlmCalls := 0 }
  else
    let all_content := mainSection url m.1
    let step :
        String × ReaderState × List String × List String × Nat :=
      if follow_links then
        let links := extract_notion_links m.1
        if links ≠ [] then
          let sel := ask_llm_for_links env question m.1 links
          if sel.1 ≠ [] then
            let lp := fetchLoop env m.2.1 sel.1 all_content
            (lp.1, lp.2.1, lp.2.2.1, lp.2.2.2, sel.2)
          else (all_content, m.2.1, [], [], sel.2)
        else (all_content, m.2.1, [], [], 0)
      else (all_content, m.2.1, [], [], 0)
    { answer := generate_answer env question step.1,
      state := step.2.1,
      fetchCalls := url :: step.2.2.1,
      netRequests := m.2.2 ++ step.2.2.2.1,
      synthContexts := [step.1],
      linkLlmCalls := step.2.2.2.2 }

/-- A sequence of direct `extract_page_content` calls on one session:
threads the state through and concatenates the outbound request logs. -/
def runCalls (env : Env) (s : ReaderState) : List String → ReaderState × List String
  | [] => (s, [])
  | u :: rest =>
      let r := extract_page_content env s u
      let k := runCalls env r.2.1 rest
      (k.1, r.2.2 ++ k.2)

/-! ### Helper lemmas about `extract_page_content` -/

/-- `env.fetch u` is a completed response with status 200. -/
def fetchOk200 (env : Env) (u : String) : Bool :=
  match env.fetch u with
  | .ok 200 _ => true
  | _ => false

theorem extract_of_visited (env : Env) (s : ReaderState) (u : String)
    (h : u ∈ s.visited_urls) :
    extract_page_content env s u = ((s.page_contents.lookup u).getD "", s, []) := by
  simp [extract_page_content, h]

theorem extract_requests_cases (env : Env) (s : ReaderState) (v : String) :
    (extract_page_content env s v).2.2 = [] ∨ (extract_page_content env s v).2.2 = [v] := by
  unfold extract_page_content
  split
  · exact Or.inl rfl
  · split
    · split
      · exact Or.inr rfl
      · exact Or.inr rfl
    · exact Or.inr rfl

theorem extract_visited_mono (env : Env) (s : ReaderState) (v u : String)
    (h : u ∈ s.visited_urls) :
    u ∈ (extract_page_content env s v).2.1.visited_urls := by
  unfold extract_page_content
  split
  · exact h
  · split
    · split
      · exact List.mem_cons_of_mem _ h
      · exact h
    · exact h

theorem extract_visited_other (env : Env) (s : ReaderState) (v u : String)
    (hne : u ≠ v) :
    (u ∈ (extract_page_content env s v).2.1.visited_urls ↔ u ∈ s.visited_urls) := by
  unfold extract_page_content
  split
  · exact Iff.rfl
  · split
    · split
      · simp [hne]
      · exact Iff.rfl
    · exact Iff.rfl

theorem extract_ok200_visits (env : Env) (s : ReaderState) (u : String)
    (h : fetchOk200 env u = true) :
    u ∈ (extract_page_content env s u).2.1.visited_urls := by
  unfold fetchOk200 at h
  split at h
  · next text heq =>
      unfold extract_page_content
      split
      · assumption
      · rw [heq]; simp
  · exact absurd h (by simp)

/-! ### Witness environments -/

/-- A world whose every page fetch succeeds with body `"hi"`. -/
def envOk : Env := ⟨fun _ => .ok 200 "hi", fun _ => .exn "down", fun _ => none⟩

/-- A world whose every page fetch answers with status 500. -/
def envFail : Env := ⟨fun _ => .ok 500 "", fun _ => .exn "down", fun _ => none⟩

/-! ### Claim theorems -/

/-- C5: for every URL already recorded in the session cache by an
`extract_page_content` call, a second call returns the very content the
first call produced, performs no network request, and leaves the
session state unchanged. -/
theorem extract_page_content_second_call_cached (env : Env) (s : ReaderState)
    (u : String)
    (hv : u ∈ (extract_page_content env s u).2.1.visited_urls) :
    extract_page_content env (extract_page_content env s u).2.1 u =
      ((extract_page_content env s u).1, (extract_page_content env s u).2.1, []) := by
  by_cases hm : u ∈ s.visited_urls
  · rw [extract_of_visited env s u hm]
    exact extract_of_visited env s u hm
  · cases hf : env.fetch u with
    | ok status text =>
        by_cases h2 : status = 200
        · subst h2
          simp [extract_page_content, hm, hf, List.lookup]
        · simp [extract_page_content, hm, hf, h2] at hv
    | exn m =>
        simp [extract_page_content, hm, hf] at hv

theorem extract_page_content_second_call_cached_witness :
    "https://notion.site/a" ∈
      ((extract_page_content envOk ReaderState.init "https://notion.site/a").2.1).visited_urls ∧
    extract_page_content envOk
        (extract_page_content envOk ReaderState.init "https://notion.site/a").2.1
        "https://notion.site/a" =
      ((extract_page_content envOk ReaderState.init "https://notion.site/a").1,
       (extract_page_content envOk ReaderState.init "https://notion.site/a").2.1, []) :=
  ⟨by decide,
   extract_page_content_second_call_cached envOk ReaderState.init
     "https://notion.site/a" (by decide)⟩

/-- C3: `ask_llm_for_links` returns at most `MAX_LINKS_TO_FOLLOW` (5)
links, whatever the model's JSON array contained. -/
theorem ask_llm_for_links_length_le (env : Env) (question main_content : String)
    (available_links : List String) :
    (ask_llm_for_links env question main_content available_links).1.length ≤
      MAX_LINKS_TO_FOLLOW := by
  unfold ask_llm_for_links
  repeat' split
  all_goals simp [MAX_LINKS_TO_FOLLOW, List.length_take]

/-- C2: when the main-page fetch yields empty content, `answer_question`
returns the failure message having passed only the main URL to
`extract_page_content`, with no link-selection request, no synthesizer
call, and no outbound requests beyond those of the main fetch itself. -/
theorem answer_question_main_fetch_empty (env : Env) (s : ReaderState)
    (question url : String) (follow_links : Bool)
    (h : (extract_page_content env s url).1 = "") :
    answer_question env s question url follow_links =
      { answer := mainFetchFailMsg,
        state := (extract_page_content env s url).2.1,
        fetchCalls := [url],
        netRequests := (extract_page_content env s url).2.2,
        synthContexts := [],
        linkLlmCalls := 0 } := by
  unfold answer_question
  simp [h]

theorem answer_question_main_fetch_empty_witness :
    (extract_page_content envFail ReaderState.init "https://notion.site/a").1 = "" ∧
    answer_question envFail ReaderState.init "q" "https://notion.site/a" true =
      { answer := mainFetchFailMsg,
        state := (extract_page_content envFail ReaderState.init "https://notion.site/a").2.1,
        fetchCalls := ["https://notion.site/a"],
        netRequests := (extract_page_content envFail ReaderState.init "https://notion.site/a").2.2,
        synthContexts := [],
        linkLlmCalls := 0 } :=
  ⟨by decide,
   answer_question_main_fetch_empty envFail ReaderState.init "q"
     "https://notion.site/a" true (by decide)⟩

/-- C7: a 200 model response whose content holds no parseable JSON
array (no bracket pair, or `json.loads` raising) makes
`ask_llm_for_links` return the empty list after exactly one request —
the error is swallowed, nothing is retried and nothing is raised
(the embedding is a total function). -/
theorem ask_llm_for_links_parse_failure (env : Env) (question main_content : String)
    (available_links : List String) (c : String) (em : Option String)
    (hl : available_links ≠ [])
    (hc : env.llm (linksPrompt question available_links) = .ok 200 c em)
    (hp : (extractJsonStr (pyStrip c)).bind env.jsonLoads = none) :
    ask_llm_for_links env question main_content available_links = ([], 1) := by
  unfold ask_llm_for_links
  rw [if_neg hl, hc]
  simp only [if_pos rfl]
  cases hj : extractJsonStr (pyStrip c) with
  | none => simp
  | some js =>
      rw [hj] at hp
      simp only [Option.some_bind] at hp
      simp [hp]

theorem ask_llm_for_links_parse_failure_witness :
    (["https://notion.site/a"] : List String) ≠ [] ∧
    (Env.mk (fun _ => .ok 500 "") (fun _ => .ok 200 "no json here" none) (fun _ => none)).llm
        (linksPrompt "q" ["https://notion.site/a"]) = .ok 200 "no json here" none ∧
    (extractJsonStr (pyStrip "no json here")).bind
        (Env.mk (fun _ => .ok 500 "") (fun _ => .ok 200 "no json here" none)
          (fun _ => none)).jsonLoads = none ∧
    ask_llm_for_links
        (Env.mk (fun _ => .ok 500 "") (fun _ => .ok 200 "no json here" none) (fun _ => none))
        "q" "main" ["https://notion.site/a"] = ([], 1) :=
  ⟨by decide, rfl, by decide,
   ask_llm_for_links_parse_failure _ "q" "main" ["https://notion.site/a"]
     "no json here" none (by decide) rfl (by decide)⟩

/-- C9: when the matches of the Notion-link pattern in a text are `n`
occurrences of one URL, `extract_notion_links` returns the empty list
for `n = 0` and the deduplicated singleton for every `n ≥ 1`. -/
theorem extract_notion_links_replicate (text u : String) (n : Nat)
    (h : findAllLinks text = List.replicate n u) :
    extract_notion_links text = if n = 0 then [] else [u] := by
  unfold extract_notion_links
  rw [h]
  cases n with
  | zero => simp
  | succ k => simp [List.replicate_dedup (Nat.succ_ne_zero k)]

theorem extract_notion_links_replicate_witness :
    findAllLinks "https://notion.site/a and https://notion.site/a" =
      List.replicate 2 "https://notion.site/a" ∧
    extract_notion_links "https://notion.site/a and https://notion.site/a" =
      if 2 = 0 then [] else ["https://notion.site/a"] :=
  ⟨by decide,
   extract_notion_links_replicate "https://notion.site/a and https://notion.site/a"
     "https://notion.site/a" 2 (by decide)⟩

/-- C1 counterexample: in a fresh session whose fetch of the URL
answers status 500, two successive `extract_page_content` calls on the
same URL both go to the network — a failed fetch is not cached, so one
URL triggers two outbound requests within one session. -/
theorem extract_page_content_refetches_failed_url :
    List.count "https://notion.site/a"
      (runCalls envFail ReaderState.init
        ["https://notion.site/a", "https://notion.site/a"]).2 = 2 := by
  decide

theorem runCalls_count_aux (env : Env) (u : String)
    (h : fetchOk200 env u = true) :
    ∀ (calls : List String) (s : ReaderState),
      List.count u (runCalls env s calls).2 ≤ if u ∈ s.visited_urls then 0 else 1 := by
  intro calls
  induction calls with
  | nil => intro s; simp [runCalls]
  | cons v rest ih =>
      intro s
      simp only [runCalls, List.count_append]
      by_cases hvmem : v ∈ s.visited_urls
      · rw [extract_of_visited env s v hvmem]
        simpa using ih s
      · by_cases hvu : v = u
        · subst hvu
          rw [if_neg hvmem]
          have hvis := extract_ok200_visits env s v h
          have hk := ih (extract_page_content env s v).2.1
          rw [if_pos hvis] at hk
          have hcr : List.count v (extract_page_content env s v).2.2 ≤ 1 := by
            rcases extract_requests_cases env s v with hreq | hreq <;>
              simp [hreq, List.count_cons]
          omega
        · have hne : u ≠ v := fun hh => hvu hh.symm
          have hiff := extract_visited_other env s v u hne
          have hcr : List.count u (extract_page_content env s v).2.2 = 0 := by
            rcases extract_requests_cases env s v with hreq | hreq <;>
              simp [hreq, List.count_cons, hne]
          rw [hcr]
          have hk := ih (extract_page_content env s v).2.1
          by_cases hus : u ∈ s.visited_urls
          · rw [if_pos hus]
            rw [if_pos (hiff.mpr hus)] at hk
            omega
          · rw [if_neg hus]
            rw [if_neg (fun hh => hus (hiff.mp hh))] at hk
            omega

/-- C1 amended: in one session, every URL whose fetch succeeds (status
200) triggers at most one outbound request over any sequence of
`extract_page_content` calls; only URLs whose fetch fails — which are
not cached — can be requested repeatedly. -/
theorem runCalls_fetch_at_most_once (env : Env) (calls : List String) (u : String)
    (h : fetchOk200 env u = true) :
    List.count u (runCalls env ReaderState.init calls).2 ≤ 1 := by
  have hk := runCalls_count_aux env u h calls ReaderState.init
  simpa [ReaderState.init] using hk

theorem runCalls_fetch_at_most_once_witness :
    fetchOk200 envOk "https://notion.site/a" = true ∧
    List.count "https://notion.site/a"
      (runCalls envOk ReaderState.init
        ["https://notion.site/a", "https://notion.site/a", "https://notion.site/a"]).2 ≤ 1 :=
  ⟨by decide,
   runCalls_fetch_at_most_once envOk
     ["https://notion.site/a", "https://notion.site/a", "https://notion.site/a"]
     "https://notion.site/a" (by decide)⟩

/-- C8 counterexample: a call whose fetch answers status 500 records
nothing — afterwards the URL is neither in `visited_urls` nor bound in
`page_contents`, refuting "every call records the fetched URL and its
content". -/
theorem extract_page_content_failure_records_nothing :
    "https://notion.site/a" ∉
      (extract_page_content envFail ReaderState.init "https://notion.site/a").2.1.visited_urls ∧
    ((extract_page_content envFail ReaderState.init "https://notion.site/a").2.1.page_contents.lookup
      "https://notion.site/a") = none := by
  decide

/-- C8 amended: every call that actually fetches (URL not yet visited)
and receives a 200 response records the URL in `visited_urls` and its
cleaned body in `page_contents`, and returns that cleaned body; calls
whose fetch fails record nothing. -/
theorem extract_page_content_records_on_success (env : Env) (s : ReaderState)
    (u text : String)
    (hnv : u ∉ s.visited_urls)
    (hf : env.fetch u = .ok 200 text) :
    (extract_page_content env s u).1 = cleanContent text ∧
    u ∈ (extract_page_content env s u).2.1.visited_urls ∧
    (extract_page_content env s u).2.1.page_contents.lookup u =
      some (cleanContent text) := by
  simp [extract_page_content, hnv, hf, List.lookup]

theorem extract_page_content_records_on_success_witness :
    "https://notion.site/a" ∉ (ReaderState.init).visited_urls ∧
    envOk.fetch "https://notion.site/a" = .ok 200 "hi" ∧
    ((extract_page_content envOk ReaderState.init "https://notion.site/a").1 = cleanContent "hi" ∧
     "https://notion.site/a" ∈
       (extract_page_content envOk ReaderState.init "https://notion.site/a").2.1.visited_urls ∧
     (extract_page_content envOk ReaderState.init "https://notion.site/a").2.1.page_contents.lookup
       "https://notion.site/a" = some (cleanContent "hi")) :=
  ⟨by decide, rfl,
   extract_page_content_records_on_success envOk ReaderState.init
     "https://notion.site/a" "hi" (by decide) rfl⟩

/-! ### Shape of the strings matched by the Notion-link pattern (for C6) -/

theorem tryNotionEnd_shape (suf rest m rem : List Char)
    (h : tryNotionEnd suf rest = some (m, rem)) :
    ∃ body : List Char, body ≠ [] ∧ m = suf ++ '/' :: body := by
  unfold tryNotionEnd at h
  split at h
  · next r4 heq =>
      simp only at h
      split at h
      · exact absurd h (by simp)
      · next hbody =>
          refine ⟨r4.takeWhile isLinkChar, hbody, ?_⟩
          injection h with h1
          exact (congrArg Prod.fst h1).symm
  · exact absurd h (by simp)

theorem matchAfterNotion_shape (rest m rem : List Char)
    (h : matchAfterNotion rest = some (m, rem)) :
    ∃ body : List Char, body ≠ [] ∧
      (m = "site/".toList ++ body ∨ m = "so/".toList ++ body) := by
  unfold matchAfterNotion at h
  split at h
  · next res heq =>
      injection h with h1
      subst h1
      obtain ⟨body, hb, hm⟩ := tryNotionEnd_shape _ _ _ _ heq
      exact ⟨body, hb, Or.inl (by simpa using hm)⟩
  · obtain ⟨body, hb, hm⟩ := tryNotionEnd_shape _ _ _ _ h
    exact ⟨body, hb, Or.inr (by simpa using hm)⟩

theorem matchLinkAt_shape (cs m rem : List Char)
    (h : matchLinkAt cs = some (m, rem)) :
    ∃ body : List Char, body ≠ [] ∧
      (m = "https://notion.site/".toList ++ body ∨
       m = "https://www.notion.site/".toList ++ body ∨
       m = "https://notion.so/".toList ++ body ∨
       m = "https://www.notion.so/".toList ++ body) := by
  unfold matchLinkAt at h
  split at h
  · exact absurd h (by simp)
  · next rest1 heq1 =>
      simp only at h
      split at h
      · next r hw =>
          -- the www-branch produced the match
          injection h with h1
          subst h1
          split at hw
          · next restW heqw =>
              split at hw
              · next rest2 heqn =>
                  split at hw
                  · next mm rr heqm =>
                      injection hw with h2
                      obtain ⟨body, hb, hm⟩ := matchAfterNotion_shape _ _ _ heqm
                      rcases hm with hm | hm <;>
                        [exact ⟨body, hb, Or.inr (Or.inl (by
                          have := congrArg Prod.fst h2
                          simp only at this
                          rw [← this, hm]; simp))⟩;
                         exact ⟨body, hb, Or.inr (Or.inr (Or.inr (by
                          have := congrArg Prod.fst h2
                          simp only at this
                          rw [← this, hm]; simp)))⟩]
                  · exact absurd hw (by simp)
              · exact absurd hw (by simp)
          · exact absurd hw (by simp)
      · -- the www-branch failed; the bare branch produced the match
        split at h
        · next rest2 heqn =>
            split at h
            · next mm rr heqm =>
                injection h with h2
                obtain ⟨body, hb, hm⟩ := matchAfterNotion_shape _ _ _ heqm
                rcases hm with hm | hm <;>
                  [exact ⟨body, hb, Or.inl (by
                    have := congrArg Prod.fst h2
                    simp only at this
                    rw [← this, hm]; simp)⟩;
                   exact ⟨body, hb, Or.inr (Or.inr (Or.inl (by
                    have := congrArg Prod.fst h2
                    simp only at this
                    rw [← this, hm]; simp)))⟩]
            · exact absurd h (by simp)
        · exact absurd h (by simp)

theorem findAllAux_mem_shape (fuel : Nat) (l : List Char) (u : String)
    (h : u ∈ findAllAux fuel l) :
    ∃ cs m rem, matchLinkAt cs = some (m, rem) ∧ u = String.mk m := by
  induction fuel generalizing l with
  | zero => simp [findAllAux] at h
  | succ n ih =>
      cases l with
      | nil => simp [findAllAux] at h
      | cons c cstail =>
          unfold findAllAux at h
          split at h
          · next m rem heq =>
              rcases List.mem_cons.mp h with hu | hu
              · exact ⟨c :: cstail, m, rem, heq, hu⟩
              · exact ih _ hu
          · exact ih _ h

theorem urlHost_notion_site_pre (tail : String) :
    urlHost ("https://notion.site/" ++ tail) = "notion.site" := rfl

theorem urlHost_www_notion_site_pre (tail : String) :
    urlHost ("https://www.notion.site/" ++ tail) = "www.notion.site" := rfl

theorem urlHost_notion_so_pre (tail : String) :
    urlHost ("https://notion.so/" ++ tail) = "notion.so" := rfl

theorem urlHost_www_notion_so_pre (tail : String) :
    urlHost ("https://www.notion.so/" ++ tail) = "www.notion.so" := rfl

/-- C6 counterexample: the pattern matches links on the hosts
`notion.site` / `notion.so` (optionally `www.`-prefixed), not links on
the documentation site's own host.  `https://notion.so/abc` is
extracted, yet its host differs from that of `DEFAULT_NOTION_URL`
(`techbrews.notion.site`) — it is not even a `notion.site` address. -/
theorem extract_notion_links_not_same_domain :
    extract_notion_links "see https://notion.so/abc" = ["https://notion.so/abc"] ∧
    urlHost "https://notion.so/abc" = "notion.so" ∧
    urlHost DEFAULT_NOTION_URL = "techbrews.notion.site" ∧
    urlHost "https://notion.so/abc" ≠ urlHost DEFAULT_NOTION_URL := by
  exact ⟨by decide, rfl, rfl, by decide⟩

/-- C6 amended: every URL returned by `extract_notion_links` matches
the fixed pattern — it is `https://notion.site/`, `https://www.notion.site/`,
`https://notion.so/` or `https://www.notion.so/` followed by a
non-empty tail — and its host therefore always differs from the host of
the documentation site (`techbrews.notion.site`); same-domain links of
the documentation site itself are never matched. -/
theorem extract_notion_links_mem_shape (text u : String)
    (h : u ∈ extract_notion_links text) :
    (∃ tail : String, tail ≠ "" ∧
       (u = "https://notion.site/" ++ tail ∨
        u = "https://www.notion.site/" ++ tail ∨
        u = "https://notion.so/" ++ tail ∨
        u = "https://www.notion.so/" ++ tail)) ∧
    urlHost u ≠ urlHost DEFAULT_NOTION_URL := by
  have hmem : u ∈ findAllLinks text := by
    have := h
    unfold extract_notion_links at this
    exact List.mem_dedup.mp this
  obtain ⟨cs, m, rem, hmatch, hu⟩ := findAllAux_mem_shape _ _ _ hmem
  obtain ⟨body, hb, hshape⟩ := matchLinkAt_shape _ _ _ hmatch
  have hbodyS : String.mk body ≠ "" := by
    intro hh
    exact hb (congrArg String.toList hh)
  subst hu
  rcases hshape with hm | hm | hm | hm <;> rw [hm]
  · refine ⟨⟨String.mk body, hbodyS, Or.inl rfl⟩, ?_⟩
    show urlHost ("https://notion.site/" ++ String.mk body) ≠ urlHost DEFAULT_NOTION_URL
    rw [urlHost_notion_site_pre]
    decide
  · refine ⟨⟨String.mk body, hbodyS, Or.inr (Or.inl rfl)⟩, ?_⟩
    show urlHost ("https://www.notion.site/" ++ String.mk body) ≠ urlHost DEFAULT_NOTION_URL
    rw [urlHost_www_notion_site_pre]
    decide
  · refine ⟨⟨String.mk body, hbodyS, Or.inr (Or.inr (Or.inl rfl))⟩, ?_⟩
    show urlHost ("https://notion.so/" ++ String.mk body) ≠ urlHost DEFAULT_NOTION_URL
    rw [urlHost_notion_so_pre]
    decide
  · refine ⟨⟨String.mk body, hbodyS, Or.inr (Or.inr (Or.inr rfl))⟩, ?_⟩
    show urlHost ("https://www.notion.so/" ++ String.mk body) ≠ urlHost DEFAULT_NOTION_URL
    rw [urlHost_www_notion_so_pre]
    decide

theorem extract_notion_links_mem_shape_witness :
    "https://notion.so/abc" ∈ extract_notion_links "x https://notion.so/abc y" ∧
    ((∃ tail : String, tail ≠ "" ∧
       ("https://notion.so/abc" = "https://notion.site/" ++ tail ∨
        "https://notion.so/abc" = "https://www.notion.site/" ++ tail ∨
        "https://notion.so/abc" = "https://notion.so/" ++ tail ∨
        "https://notion.so/abc" = "https://www.notion.so/" ++ tail)) ∧
     urlHost "https://notion.so/abc" ≠ urlHost DEFAULT_NOTION_URL) :=
  ⟨by decide,
   extract_notion_links_mem_shape "x https://notion.so/abc y"
     "https://notion.so/abc" (by decide)⟩

/-! ### The follow-links branch of `answer_question` (for C4, C10) -/

theorem ask_llm_for_links_success (env : Env) (q mc : String) (links : List String)
    (c js : String) (em : Option String) (arr : List String)
    (hl : links ≠ [])
    (hc : env.llm (linksPrompt q links) = .ok 200 c em)
    (hjs : extractJsonStr (pyStrip c) = some js)
    (harr : env.jsonLoads js = some arr) :
    ask_llm_for_links env q mc links = (arr.take MAX_LINKS_TO_FOLLOW, 1) := by
  unfold ask_llm_for_links
  rw [if_neg hl, hc]
  simp [hjs, harr]

theorem fetchLoop_fetchCalls (env : Env) (s : ReaderState) (links : List String)
    (acc : String) :
    (fetchLoop env s links acc).2.2.1 = links := by
  induction links generalizing s acc with
  | nil => simp [fetchLoop]
  | cons l rest ih => simp [fetchLoop, ih]

/-- The content each followed link contributes, in selection order,
threading the evolving session cache (a specification helper for the
loop of `answer_question`). -/
def loopContents (env : Env) (s : ReaderState) : List String → List String
  | [] => []
  | l :: rest =>
      (extract_page_content env s l).1 ::
        loopContents env (extract_page_content env s l).2.1 rest

theorem loopContents_length (env : Env) (s : ReaderState) (links : List String) :
    (loopContents env s links).length = links.length := by
  induction links generalizing s with
  | nil => simp [loopContents]
  | cons l rest ih => simp [loopContents, ih]

/-- Concatenation of labelled sections. -/
def concatSections : List String → String
  | [] => ""
  | sec :: rest => sec ++ concatSections rest

theorem fetchLoop_context (env : Env) (s : ReaderState) (links : List String)
    (acc : String)
    (h : ∀ c ∈ loopContents env s links, c ≠ "") :
    (fetchLoop env s links acc).1 =
      acc ++ concatSections (List.zipWith linkSection links (loopContents env s links)) := by
  induction links generalizing s acc with
  | nil => simp [fetchLoop, loopContents, concatSections]
  | cons l rest ih =>
      have hl : (extract_page_content env s l).1 ≠ "" := by
        exact h _ (by simp [loopContents])
      have hrest : ∀ c ∈ loopContents env (extract_page_content env s l).2.1 rest, c ≠ "" := by
        intro c hcmem
        exact h c (by simp [loopContents, hcmem])
      simp only [fetchLoop, loopContents, List.zipWith_cons_cons, concatSections]
      rw [if_neg hl]
      rw [ih _ _ hrest]
      rw [String.append_assoc]

/-- World for C10's witness: the model answers with a URL that occurs
nowhere among the page's links and matches no Notion pattern. -/
def envEvil : Env :=
  ⟨fun u => if u = "u" then .ok 200 "https://notion.site/a" else .ok 200 "hi",
   fun _ => .ok 200 "[\"https://evil.example/x\"]" none,
   fun _ => some ["https://evil.example/x"]⟩

/-- C10: whenever the model's 200 response parses as a JSON array,
`ask_llm_for_links` returns its first `MAX_LINKS_TO_FOLLOW` elements
verbatim — no check against `available_links` or the Notion pattern —
and `answer_question` passes exactly these strings, after the main URL,
to `extract_page_content`, so arbitrary model-supplied URLs are
fetched. -/
theorem answer_question_follows_model_links_verbatim
    (env : Env) (s : ReaderState) (question url mc : String) (s1 : ReaderState)
    (reqs : List String) (c js : String) (em : Option String) (arr : List String)
    (hmain : extract_page_content env s url = (mc, s1, reqs))
    (hm : mc ≠ "")
    (hl : extract_notion_links mc ≠ [])
    (hc : env.llm (linksPrompt question (extract_notion_links mc)) = .ok 200 c em)
    (hjs : extractJsonStr (pyStrip c) = some js)
    (harr : env.jsonLoads js = some arr)
    (hne : arr ≠ []) :
    ask_llm_for_links env question mc (extract_notion_links mc) =
      (arr.take MAX_LINKS_TO_FOLLOW, 1) ∧
    (answer_question env s question url true).fetchCalls =
      url :: arr.take MAX_LINKS_TO_FOLLOW := by
  have hask := ask_llm_for_links_success env question mc (extract_notion_links mc)
    c js em arr hl hc hjs harr
  have htake : arr.take MAX_LINKS_TO_FOLLOW ≠ [] := by
    intro hcon
    rcases List.take_eq_nil_iff.mp hcon with h5 | h5
    · simp [MAX_LINKS_TO_FOLLOW] at h5
    · exact hne h5
  refine ⟨hask, ?_⟩
  unfold answer_question
  simp [hmain, hm, hl, hask, htake, fetchLoop_fetchCalls]

theorem answer_question_follows_model_links_verbatim_witness :
    ask_llm_for_links envEvil "q" "https://notion.site/a"
        (extract_notion_links "https://notion.site/a") =
      (["https://evil.example/x"].take MAX_LINKS_TO_FOLLOW, 1) ∧
    (answer_question envEvil ReaderState.init "q" "u" true).fetchCalls =
      "u" :: ["https://evil.example/x"].take MAX_LINKS_TO_FOLLOW :=
  answer_question_follows_model_links_verbatim envEvil ReaderState.init "q" "u"
    "https://notion.site/a" ⟨["u"], [("u", "https://notion.site/a")]⟩ ["u"]
    "[\"https://evil.example/x\"]" "[\"https://evil.example/x\"]" none
    ["https://evil.example/x"]
    (by decide) (by decide) (by decide) rfl (by decide) rfl (by decide)

theorem answer_question_follow_unfold (env : Env) (s : ReaderState)
    (question url mc : String) (s1 : ReaderState) (reqs : List String)
    (sel : List String) (n : Nat)
    (hmain : extract_page_content env s url = (mc, s1, reqs))
    (hm : mc ≠ "")
    (hl : extract_notion_links mc ≠ [])
    (hsel : ask_llm_for_links env question mc (extract_notion_links mc) = (sel, n))
    (hse : sel ≠ []) :
    answer_question env s question url true =
      { answer := generate_answer env question
          (fetchLoop env s1 sel (mainSection url mc)).1,
        state := (fetchLoop env s1 sel (mainSection url mc)).2.1,
        fetchCalls := url :: (fetchLoop env s1 sel (mainSection url mc)).2.2.1,
        netRequests := reqs ++ (fetchLoop env s1 sel (mainSection url mc)).2.2.2,
        synthContexts := [(fetchLoop env s1 sel (mainSection url mc)).1],
        linkLlmCalls := n } := by
  unfold answer_question
  simp [hmain, hm, hl, hsel, hse]

theorem answer_question_follow_noSel_unfold (env : Env) (s : ReaderState)
    (question url mc : String) (s1 : ReaderState) (reqs : List String) (n : Nat)
    (hmain : extract_page_content env s url = (mc, s1, reqs))
    (hm : mc ≠ "")
    (hl : extract_notion_links mc ≠ [])
    (hsel : ask_llm_for_links env question mc (extract_notion_links mc) = ([], n)) :
    answer_question env s question url true =
      { answer := generate_answer env question (mainSection url mc),
        state := s1, fetchCalls := [url], netRequests := reqs,
        synthContexts := [mainSection url mc], linkLlmCalls := n } := by
  unfold answer_question
  simp [hmain, hm, hl, hsel]

/-- World for C4's witness: a main page with two matching links, a
selector returning both, and every linked-page fetch succeeding. -/
def envC4 : Env :=
  ⟨fun u => if u = "u" then .ok 200 "https://notion.site/a https://notion.site/b"
            else .ok 200 "hi",
   fun _ => .ok 200 "[\"https://notion.site/a\", \"https://notion.site/b\"]" none,
   fun _ => some ["https://notion.site/a", "https://notion.site/b"]⟩

/-- C4: when the main fetch succeeds, links are found, and every
selected link fetches non-empty content, the synthesizer is called
exactly once, on the context made of the labelled main-page section
followed by one labelled section per selected link in selection order —
`sel.length + 1` labelled sections — and `generate_answer` places
exactly the first 15000 characters of that context into its prompt. -/
theorem answer_question_synthesizes_labelled_context
    (env : Env) (s : ReaderState) (question url mc : String) (s1 : ReaderState)
    (reqs : List String) (sel : List String) (n : Nat)
    (hmain : extract_page_content env s url = (mc, s1, reqs))
    (hm : mc ≠ "")
    (hl : extract_notion_links mc ≠ [])
    (hsel : ask_llm_for_links env question mc (extract_notion_links mc) = (sel, n))
    (hsucc : ∀ c ∈ loopContents env s1 sel, c ≠ "") :
    (answer_question env s question url true).synthContexts =
      [mainSection url mc ++
        concatSections (List.zipWith linkSection sel (loopContents env s1 sel))] ∧
    (answer_question env s question url true).answer =
      generate_answer env question
        (mainSection url mc ++
          concatSections (List.zipWith linkSection sel (loopContents env s1 sel))) ∧
    (List.zipWith linkSection sel (loopContents env s1 sel)).length = sel.length ∧
    (∀ ctx : String,
       answerPrompt question ctx =
         answerPromptPre question ++ String.mk (ctx.toList.take 15000) ++ answerPromptPost ∧
       (String.mk (ctx.toList.take 15000)).length ≤ 15000) := by
  have hlen : (List.zipWith linkSection sel (loopContents env s1 sel)).length = sel.length := by
    simp [List.length_zipWith, loopContents_length]
  have hprompt : ∀ ctx : String,
      answerPrompt question ctx =
        answerPromptPre question ++ String.mk (ctx.toList.take 15000) ++ answerPromptPost ∧
      (String.mk (ctx.toList.take 15000)).length ≤ 15000 := by
    intro ctx
    refine ⟨rfl, ?_⟩
    show (ctx.toList.take 15000).length ≤ 15000
    rw [List.length_take]
    exact Nat.min_le_left _ _
  by_cases hse : sel = []
  · subst hse
    rw [answer_question_follow_noSel_unfold env s question url mc s1 reqs n hmain hm hl hsel]
    have hctx : mainSection url mc ++
        concatSections (List.zipWith linkSection [] (loopContents env s1 [])) =
        mainSection url mc := by
      simp only [List.zipWith_nil_left, concatSections]
      exact String.append_empty _
    rw [hctx]
    exact ⟨rfl, rfl, hlen, hprompt⟩
  · rw [answer_question_follow_unfold env s question url mc s1 reqs sel n hmain hm hl hsel hse]
    rw [fetchLoop_context env s1 sel (mainSection url mc) hsucc]
    exact ⟨rfl, rfl, hlen, hprompt⟩

theorem answer_question_synthesizes_labelled_context_witness :
    (answer_question envC4 ReaderState.init "q" "u" true).synthContexts =
      [mainSection "u" "https://notion.site/a https://notion.site/b" ++
        concatSections (List.zipWith linkSection
          ["https://notion.site/a", "https://notion.site/b"]
          (loopContents envC4
            ⟨["u"], [("u", "https://notion.site/a https://notion.site/b")]⟩
            ["https://notion.site/a", "https://notion.site/b"]))] ∧
    (List.zipWith linkSection
        ["https://notion.site/a", "https://notion.site/b"]
        (loopContents envC4
          ⟨["u"], [("u", "https://notion.site/a https://notion.site/b")]⟩
          ["https://notion.site/a", "https://notion.site/b"])).length =
      (["https://notion.site/a", "https://notion.site/b"] : List String).length :=
  ⟨(answer_question_synthesizes_labelled_context envC4 ReaderState.init "q" "u"
      "https://notion.site/a https://notion.site/b"
      ⟨["u"], [("u", "https://notion.site/a https://notion.site/b")]⟩ ["u"]
      ["https://notion.site/a", "https://notion.site/b"] 1
      (by decide) (by decide) (by decide) (by decide) (by decide)).1,
   (answer_question_synthesizes_labelled_context envC4 ReaderState.init "q" "u"
      "https://notion.site/a https://notion.site/b"
      ⟨["u"], [("u", "https://notion.site/a https://notion.site/b")]⟩ ["u"]
      ["https://notion.site/a", "https://notion.site/b"] 1
      (by decide) (by decide) (by decide) (by decide) (by decide)).2.2.1⟩
